import Mathlib

/-!
Shallow embedding of the url-monitor backend (Python, `src/backend/`).

External effects are made explicit:
* wall-clock instants are integers (minutes), so that the Python
  comparison `datetime.now() - url.last_alerted_at < timedelta(minutes=c)`
  becomes the exact integer comparison `now - t < c`;
* the outcome of an HTTP POST to the Slack webhook
  (`requests.post` + `raise_for_status`) is a boolean input `post_ok`;
* the outcome of `requests.get` in the probe is an `Except` value:
  `.ok` carries the response, `.error` carries `str(e)` of the raised
  exception;
* the database session is a list of records threaded through the
  functions; a query sees earlier pending adds of the same pass, which
  matches the default autoflush behaviour of a SQLAlchemy session.
-/

/-- Configuration read in `AlertManager.__init__`: the Slack webhook URL,
the failure threshold (`ALERT_FAILURE_THRESHOLD`, default 2) and the
cooldown in minutes (`ALERT_COOLDOWN_MINUTES`, default 15). -/
structure AlertConfig where
  slack_webhook_url : String
  failure_threshold : Nat
  cooldown_minutes : Nat
  deriving DecidableEq

/-- The columns of `models.URL` that the alert logic reads and writes. -/
structure AlertURL where
  alert_enabled : Bool
  is_one_time : Bool
  alert_recovery : Bool
  consecutive_failures : Nat
  last_alerted_at : Option Int
  deriving DecidableEq

/-- Result of `AlertManager.send_failure_alert`: the (possibly updated)
URL row and the boolean return value (True exactly when the webhook POST
was made and succeeded). -/
structure SendResult where
  url : AlertURL
  delivered : Bool
  deriving DecidableEq

/-- `AlertManager.send_failure_alert` (alert_manager.py lines 44-119).
Returns False without posting when no webhook is configured, or when a
previous alert time exists and lies within the cooldown window.
Otherwise it posts; only on a successful POST does it set
`last_alerted_at = now` (the update sits after `raise_for_status`
inside the try block), and a failed POST is swallowed (returns False). -/
def send_failure_alert (cfg : AlertConfig) (url : AlertURL) (now : Int)
    (post_ok : Bool) : SendResult :=
  if cfg.slack_webhook_url = "" then ⟨url, false⟩
  else
    match url.last_alerted_at with
    | some t =>
        if now - t < (cfg.cooldown_minutes : Int) then ⟨url, false⟩
        else if post_ok then ⟨{ url with last_alerted_at := some now }, true⟩
        else ⟨url, false⟩
    | none =>
        if post_ok then ⟨{ url with last_alerted_at := some now }, true⟩
        else ⟨url, false⟩

/-- `AlertManager.send_recovery_alert` (lines 121-173): posts unless no
webhook is configured; consults neither `last_alerted_at` nor the clock,
and never mutates the URL row. Returns True iff the POST succeeded. -/
def send_recovery_alert (cfg : AlertConfig) (post_ok : Bool) : Bool :=
  if cfg.slack_webhook_url = "" then false else post_ok

/-- Result of one `AlertManager.process_status_for_alerts` call: the
updated URL row, whether `send_failure_alert` was invoked (the Failure
event), whether it delivered, and likewise for `send_recovery_alert`. -/
structure ProcessResult where
  url : AlertURL
  failure_event : Bool
  failure_delivered : Bool
  recovery_event : Bool
  recovery_delivered : Bool
  deriving DecidableEq

/-- `AlertManager.process_status_for_alerts` (lines 21-42) for a URL row
that exists in the database.  Rows with alerts disabled or one-time rows
are returned untouched.  On an up status: send a recovery alert when the
failure counter has reached the threshold and `alert_recovery` is set,
then reset the counter.  On a down status: increment the counter and
invoke `send_failure_alert` exactly when the counter equals the
threshold. -/
def process_status_for_alerts (cfg : AlertConfig) (url : AlertURL)
    (is_up : Bool) (now : Int) (post_ok : Bool) : ProcessResult :=
  if url.alert_enabled = false ∨ url.is_one_time = true then
    ⟨url, false, false, false, false⟩
  else if is_up then
    if cfg.failure_threshold ≤ url.consecutive_failures ∧ url.alert_recovery = true then
      ⟨{ url with consecutive_failures := 0 }, false, false, true,
        send_recovery_alert cfg post_ok⟩
    else
      ⟨{ url with consecutive_failures := 0 }, false, false, false, false⟩
  else
    let url1 := { url with consecutive_failures := url.consecutive_failures + 1 }
    if url1.consecutive_failures = cfg.failure_threshold then
      let r := send_failure_alert cfg url1 now post_ok
      ⟨r.url, true, r.delivered, false, false⟩
    else
      ⟨url1, false, false, false, false⟩

/-- One scheduler tick as seen by the alert layer: the probe verdict, the
wall-clock instant, and whether a webhook POST made at that tick would
succeed. -/
structure Tick where
  is_up : Bool
  now : Int
  post_ok : Bool
  deriving DecidableEq

/-- Run `process_status_for_alerts` over a sequence of ticks, threading
the URL row, and collect the per-tick results. -/
def runAlertTrace (cfg : AlertConfig) (url : AlertURL) :
    List Tick → List ProcessResult
  | [] => []
  | t :: ts =>
      let r := process_status_for_alerts cfg url t.is_up t.now t.post_ok
      r :: runAlertTrace cfg r.url ts

/-- The URL row after processing a sequence of ticks. -/
def stateAfterTrace (cfg : AlertConfig) (url : AlertURL) :
    List Tick → AlertURL
  | [] => url
  | t :: ts =>
      stateAfterTrace cfg
        (process_status_for_alerts cfg url t.is_up t.now t.post_ok).url ts

/-! ## Probe (network_monitor.NetworkMonitor.check_url) -/

/-- The pieces of a `requests` response the backend reads: the status
code and the lowercased Content-Type header. -/
structure HTTPResponse where
  status_code : Nat
  content_type : String
  deriving DecidableEq

/-- A row of `models.URLStatus` as built by `check_url`. -/
structure URLStatusRec where
  url_id : Nat
  status_code : Nat
  response_time : ℚ
  is_up : Bool
  error_message : Option String
  deriving DecidableEq

/-- `NetworkMonitor.check_url` (network_monitor.py lines 30-79), probe
part.  `result` is the outcome of `requests.get(url, timeout=10)`:
`.ok` a response, `.error e` an exception whose `str` is `e`; `elapsed`
is the measured wall time of a successful GET.  The except-branch makes
the function total: no exception escapes the probe.  On a response the
up flag is `response.status_code < 400`; on an exception the row is
status 0, response time 0, down, with the error text recorded. -/
def check_url_status (url_id : Nat) (result : Except String HTTPResponse)
    (elapsed : ℚ) : URLStatusRec :=
  match result with
  | .ok resp => ⟨url_id, resp.status_code, elapsed, decide (resp.status_code < 400), none⟩
  | .error e => ⟨url_id, 0, 0, false, some e⟩

/-! ## String helpers mirroring the Python string operations -/

/-- Python `str.lower` (restricted to the alphabetic mapping). -/
def strLower (s : String) : String := ⟨s.data.map Char.toLower⟩

/-- Python `str.startswith`. -/
def strStartsWith (s p : String) : Bool := List.isPrefixOf p.data s.data

/-- Python `str.endswith`. -/
def strEndsWith (s p : String) : Bool := List.isSuffixOf p.data s.data

/-- Python `p in s` substring containment. -/
def strContainsSub (s p : String) : Bool :=
  (List.range (s.data.length + 1)).any (fun i => List.isPrefixOf p.data (s.data.drop i))

/-! ## Resource-type guesser (NetworkMonitor._guess_resource_type) -/

/-- `NetworkMonitor._guess_resource_type` (lines 286-311): content type
first (the four `in` checks, in source order, skipped entirely when the
content type is empty), then the lowercased URL extension, else
`"Other"`. -/
def guess_resource_type (url content_type : String) : String :=
  let url_lower := strLower url
  if content_type ≠ "" ∧ strContainsSub content_type "javascript" = true then "JavaScript"
  else if content_type ≠ "" ∧ strContainsSub content_type "css" = true then "Stylesheet"
  else if content_type ≠ "" ∧ strContainsSub content_type "image/" = true then "Image"
  else if content_type ≠ "" ∧ strContainsSub content_type "html" = true then "HTML"
  else if strEndsWith url_lower ".jpg" = true ∨ strEndsWith url_lower ".jpeg" = true ∨
      strEndsWith url_lower ".png" = true ∨ strEndsWith url_lower ".gif" = true ∨
      strEndsWith url_lower ".webp" = true then "Image"
  else if strEndsWith url_lower ".css" = true then "Stylesheet"
  else if strEndsWith url_lower ".js" = true then "JavaScript"
  else if strEndsWith url_lower ".html" = true ∨ strEndsWith url_lower ".htm" = true then "HTML"
  else "Other"

/-! ## Subsequent-request discovery and its deduplication -/

/-- A row of `models.SubsequentRequest`. -/
structure SubsequentRequestRec where
  url_id : Nat
  target_url : String
  ip_address : String
  resource_type : String
  state_type : String
  protocol : String
  deriving DecidableEq

/-- The `subsequent_requests` table, in insertion order.  The session is
threaded through each discovery pass: a query sees the adds already made
in the same pass (SQLAlchemy autoflush). -/
abbrev DB := List SubsequentRequestRec

/-- `NetworkMonitor._url_exists_for_monitor` (lines 22-28). -/
def url_exists_for_monitor (db : DB) (url_id : Nat) (target_url : String) : Bool :=
  db.any (fun r => r.url_id == url_id && r.target_url == target_url)

/-- The `if not self._url_exists_for_monitor(...): db.add(...)` pattern
used at the guarded insertion sites. -/
def insert_if_new (db : DB) (r : SubsequentRequestRec) : DB :=
  if url_exists_for_monitor db r.url_id r.target_url then db else db ++ [r]

/-- One resource reference collected from the parsed HTML in the
fallback method (url already resolved with urljoin, plus the fixed
type/state/protocol of its tag kind). -/
structure ResourceRef where
  url : String
  resource_type : String
  state_type : String
  protocol : String
  deriving DecidableEq

/-- Environment of one `fallback_capture_method` pass: the results of
its external calls (bs4 import, urlparse, session.get, BeautifulSoup,
gethostbyname). -/
structure FallbackEnv where
  bs4_available : Bool
  unexpected_error : Bool
  netloc_nonempty : Bool
  request_ok : Bool
  content_type : String
  script_urls : List String
  stylesheet_urls : List String
  img_urls : List String
  resolve_ip : String → String

/-- URL normalization at the top of the fallback method (lines 91-93):
prepend `http://` when a non-empty URL has no scheme. -/
def normalize_url (url : String) : String :=
  if url ≠ "" ∧ ¬(strStartsWith url "http://" = true ∨ strStartsWith url "https://" = true) then
    "http://" ++ url
  else url

/-- `NetworkMonitor.fallback_capture_method` (lines 81-284) as a
function of the database.  Branches, in source order: missing bs4
(ImportError handler, line 249) inserts a "Dependencies Missing"
placeholder; empty netloc after normalization inserts "Invalid URL";
`env.unexpected_error` stands for the generic `except Exception`
handler (line 267) inserting "Error"; a failed GET (RequestException,
line 233) inserts "Request Failed"; an HTML response walks the
script/stylesheet/img references (falling back to the page itself when
none were found); a non-HTML response inserts the page itself with a
guessed resource type.  Every insertion site checks
`_url_exists_for_monitor` first. -/
def fallback_capture_method (env : FallbackEnv) (db : DB) (url_id : Nat)
    (url0 : String) : DB :=
  if env.bs4_available = false then
    insert_if_new db ⟨url_id, url0, "Dependencies Missing", "Unknown", "Unknown", "Unknown"⟩
  else
    let url := normalize_url url0
    if env.unexpected_error then
      insert_if_new db ⟨url_id, url, "Error", "Unknown", "Unknown", "Unknown"⟩
    else if env.netloc_nonempty = false then
      insert_if_new db ⟨url_id, url, "Invalid URL", "Unknown", "Unknown", "Unknown"⟩
    else if env.request_ok = false then
      insert_if_new db ⟨url_id, url, "Request Failed", "Unknown", "Unknown", "Unknown"⟩
    else if strContainsSub env.content_type "text/html" then
      let found : List ResourceRef :=
        env.script_urls.map (fun u => ⟨u, "JavaScript", "Stateless", "TCP"⟩) ++
        env.stylesheet_urls.map (fun u => ⟨u, "Stylesheet", "Stateless", "TCP"⟩) ++
        env.img_urls.map (fun u => ⟨u, "Image", "Stateless", "TCP"⟩)
      let resources := if found.isEmpty then [(⟨url, "HTML", "Stateful", "TCP"⟩ : ResourceRef)] else found
      resources.foldl (fun acc r =>
        insert_if_new acc ⟨url_id, r.url, env.resolve_ip r.url, r.resource_type, r.state_type, r.protocol⟩) db
    else
      insert_if_new db
        ⟨url_id, url, "Unknown", guess_resource_type url env.content_type, "Unknown", "TCP"⟩

/-- One request parsed out of the capture file
(`NetworkMonitor.parse_capture_file`), with the `req.get(..., default)`
defaults already applied. -/
structure ParsedReq where
  url : String
  ip : String
  resource_type : String
  state_type : String
  protocol : String
  deriving DecidableEq

/-- Environment of one `capture_subsequent_requests` pass: outcomes of
urlparse, DNS, the tcpdump toolchain and the capture-file parse, the
environment of the fallback pass it may degrade to, and whether the
fallback method itself raises (e.g. its logging I/O failing), which is
what the last-resort handler at lines 435-451 reacts to. -/
structure CaptureEnv where
  scheme_and_netloc : Bool
  dns_ok : Bool
  which_error : Bool
  tcpdump_found : Bool
  tcpdump_run_error : Bool
  output_file_ok : Bool
  parsed_requests : List ParsedReq
  fallback_env : FallbackEnv
  fallback_raises : Bool

/-- Degrading to the fallback method from inside
`capture_subsequent_requests`.  Every such call sits (directly or via
the outer handler at line 430) under the outer try: if the fallback
method raises, control reaches the handler at line 435, which inserts a
"Could not determine" placeholder WITHOUT checking
`_url_exists_for_monitor` (lines 437-449). -/
def fallback_or_last_resort (env : CaptureEnv) (db : DB) (url_id : Nat)
    (url : String) : DB :=
  if env.fallback_raises then
    db ++ [⟨url_id, url, "Could not determine", "Unknown", "Unknown", "Unknown"⟩]
  else fallback_capture_method env.fallback_env db url_id url

/-- `NetworkMonitor.capture_subsequent_requests` (lines 313-451).  An
empty URL raises ValueError (line 319) into the outer handler, which
runs the fallback; missing scheme/netloc, DNS failure, a failed or
negative tcpdump availability check, a tcpdump run error, a
missing/empty output file, and an empty parse result all degrade to the
fallback; otherwise each parsed request is inserted after an existence
check. -/
def capture_subsequent_requests (env : CaptureEnv) (db : DB) (url_id : Nat)
    (url : String) : DB :=
  if url = "" then fallback_or_last_resort env db url_id url
  else if env.scheme_and_netloc = false then fallback_or_last_resort env db url_id url
  else if env.dns_ok = false then fallback_or_last_resort env db url_id url
  else if env.which_error then fallback_or_last_resort env db url_id url
  else if env.tcpdump_found = false then fallback_or_last_resort env db url_id url
  else if env.tcpdump_run_error then fallback_or_last_resort env db url_id url
  else if env.output_file_ok = false then fallback_or_last_resort env db url_id url
  else if env.parsed_requests.isEmpty then fallback_or_last_resort env db url_id url
  else
    env.parsed_requests.foldl (fun acc req =>
      insert_if_new acc ⟨url_id, req.url, req.ip, req.resource_type, req.state_type, req.protocol⟩) db

/-- No two rows of the table share the (url_id, target_url) pair. -/
def NoDupPairs (db : DB) : Prop :=
  db.Pairwise (fun a b => ¬(a.url_id = b.url_id ∧ a.target_url = b.target_url))

/-! ## Scheduler (NetworkMonitor.start/stop_monitoring, update_frequency) -/

/-- A row of `models.URL` as the scheduling layer sees it. -/
structure URLRow where
  id : Nat
  url : String
  name : String
  is_active : Bool
  check_frequency : Nat
  is_one_time : Bool
  deriving DecidableEq

/-- An APScheduler interval job as registered by `start_monitoring`:
its object identity (`token`), the interval, and the bound
`check_url` arguments. -/
structure SchedJob where
  token : Nat
  seconds : Nat
  arg_id : Nat
  arg_url : String
  deriving DecidableEq

/-- The mutable state of a `NetworkMonitor`: the `self.jobs` dict, the
set of job objects on which `.remove()` was called, and the log of
synchronous `check_url` invocations.  `next_token` supplies fresh job
identities. -/
structure MonitorState where
  jobs : List (Nat × SchedJob)
  cancelled : List Nat
  checks : List (Nat × String)
  next_token : Nat
  deriving DecidableEq

/-- Python dict assignment `self.jobs[k] = v`: afterwards the dict binds
`k` to `v` and every other key to its previous value.  (Modelled up to
iteration order, which nothing in the backend observes for this dict.) -/
def jobsInsert (m : List (Nat × SchedJob)) (k : Nat) (v : SchedJob) :
    List (Nat × SchedJob) :=
  m.filter (fun p => !(p.1 == k)) ++ [(k, v)]

/-- `NetworkMonitor.start_monitoring` (lines 571-587): cancel the
existing job for this id if any, register a new interval job at
`check_frequency` seconds, record it in the dict, then run one
synchronous `check_url` before returning. -/
def start_monitoring (st : MonitorState) (url_obj : URLRow) : MonitorState :=
  let cancelled :=
    match st.jobs.lookup url_obj.id with
    | some j => st.cancelled ++ [j.token]
    | none => st.cancelled
  let job : SchedJob := ⟨st.next_token, url_obj.check_frequency, url_obj.id, url_obj.url⟩
  { jobs := jobsInsert st.jobs url_obj.id job,
    cancelled := cancelled,
    checks := st.checks ++ [(url_obj.id, url_obj.url)],
    next_token := st.next_token + 1 }

/-- `NetworkMonitor.stop_monitoring` (lines 589-595): cancel and delete
the job if present (returning True), otherwise report False. -/
def stop_monitoring (st : MonitorState) (url_id : Nat) : MonitorState × Bool :=
  match st.jobs.lookup url_id with
  | some j =>
      ({ st with jobs := st.jobs.filter (fun p => !(p.1 == url_id)),
                 cancelled := st.cancelled ++ [j.token] }, true)
  | none => (st, false)

/-- `NetworkMonitor.update_frequency` (lines 597-603): stop + restart
when a job exists, no-op (False) otherwise. -/
def update_frequency (st : MonitorState) (url_obj : URLRow) : MonitorState × Bool :=
  if (st.jobs.lookup url_obj.id).isSome then
    ((start_monitoring (stop_monitoring st url_obj.id).1 url_obj), true)
  else (st, false)

/-! ## API layer state machine (app.py add_url / update_url / delete_url) -/

/-- Application state: the `urls` table, the monitor, and the next
autoincrement id. -/
structure AppState where
  urls : List URLRow
  monitor : MonitorState
  next_id : Nat

/-- `add_url` (app.py lines 90-185).  A duplicate recurring URL is
rejected with 409 (no state change).  Otherwise the row is inserted
with `is_active = not one_time`, one synchronous `check_url` runs, and
then: a one-time row returns its results directly (never scheduled),
an active row is passed to `start_monitoring`. -/
def api_add_url (s : AppState) (url name : String) (one_time : Bool)
    (freq : Nat) : AppState :=
  if one_time = false ∧ s.urls.any (fun r => r.url == url && !r.is_one_time) then s
  else
    let row : URLRow := ⟨s.next_id, url, name, !one_time, freq, one_time⟩
    let m1 := { s.monitor with checks := s.monitor.checks ++ [(row.id, row.url)] }
    if one_time then ⟨s.urls ++ [row], m1, s.next_id + 1⟩
    else if row.is_active then ⟨s.urls ++ [row], start_monitoring m1 row, s.next_id + 1⟩
    else ⟨s.urls ++ [row], m1, s.next_id + 1⟩

/-- `update_url` (app.py lines 187-222): 404 when the id is unknown;
otherwise update the provided fields, then `update_frequency` if the
row is (now) active, else `stop_monitoring`. -/
def api_update_url (s : AppState) (id : Nat) (name : Option String)
    (freq : Option Nat) (active : Option Bool) : AppState :=
  if (s.urls.find? (fun r => r.id == id)).isSome then
    let urls := s.urls.map (fun r =>
      if r.id == id then
        { r with name := name.getD r.name,
                 check_frequency := freq.getD r.check_frequency,
                 is_active := active.getD r.is_active }
      else r)
    match urls.find? (fun r => r.id == id) with
    | some row =>
        if row.is_active then ⟨urls, (update_frequency s.monitor row).1, s.next_id⟩
        else ⟨urls, (stop_monitoring s.monitor id).1, s.next_id⟩
    | none => ⟨urls, s.monitor, s.next_id⟩
  else s

/-- `delete_url` (app.py lines 224-266): 404 when unknown; otherwise
stop monitoring and delete the row (with its dependent records). -/
def api_delete_url (s : AppState) (id : Nat) : AppState :=
  if (s.urls.find? (fun r => r.id == id)).isSome then
    ⟨s.urls.filter (fun r => !(r.id == id)), (stop_monitoring s.monitor id).1, s.next_id⟩
  else s

/-- One API request that touches the monitoring state. -/
inductive ApiOp where
  | add (url name : String) (one_time : Bool) (check_frequency : Nat)
  | update (id : Nat) (name : Option String) (check_frequency : Option Nat)
      (is_active : Option Bool)
  | del (id : Nat)

def applyOp (s : AppState) : ApiOp → AppState
  | .add url name ot freq => api_add_url s url name ot freq
  | .update id name freq active => api_update_url s id name freq active
  | .del id => api_delete_url s id

/-- A fresh process over an empty database. -/
def initialAppState : AppState := ⟨[], ⟨[], [], [], 0⟩, 1⟩

def runOps (s : AppState) : List ApiOp → AppState
  | [] => s
  | op :: ops => runOps (applyOp s op) ops

/-- Soundness invariant of the running application, from a fresh start:
row ids are unique and below the autoincrement counter, job keys are
unique, and every scheduled job belongs to an existing row that is
active and not one-time. -/
def AppInv (s : AppState) : Prop :=
  (s.urls.map URLRow.id).Nodup ∧
  (∀ r ∈ s.urls, r.id < s.next_id) ∧
  ((s.monitor.jobs.map Prod.fst).Nodup) ∧
  (∀ p ∈ s.monitor.jobs, ∃ r ∈ s.urls,
    r.id = p.1 ∧ r.is_active = true ∧ r.is_one_time = false)

/-! # Theorems -/

theorem process_preserves_flags (cfg : AlertConfig) (url : AlertURL)
    (is_up : Bool) (now : Int) (post_ok : Bool) :
    (process_status_for_alerts cfg url is_up now post_ok).url.alert_enabled
        = url.alert_enabled ∧
    (process_status_for_alerts cfg url is_up now post_ok).url.is_one_time
        = url.is_one_time ∧
    (process_status_for_alerts cfg url is_up now post_ok).url.alert_recovery
        = url.alert_recovery := by
  obtain ⟨en, ot, rec, cf, la⟩ := url
  cases la <;>
    simp only [process_status_for_alerts, send_failure_alert] <;>
    split_ifs <;> simp_all


/-- C5: on any exception raised by the GET (timeouts included), the
probe records status code 0, latency 0, down, and the error text of the
exception; `check_url_status` is total on the `.error` constructor, so
no exception crosses the probe boundary. -/
theorem c5_probe_error_outcome (url_id : Nat) (e : String) (q : ℚ)
    (he : e ≠ "") :
    (check_url_status url_id (.error e) q).status_code = 0 ∧
    (check_url_status url_id (.error e) q).response_time = 0 ∧
    (check_url_status url_id (.error e) q).is_up = false ∧
    (check_url_status url_id (.error e) q).error_message = some e ∧
    (check_url_status url_id (.error e) q).error_message ≠ none ∧
    (check_url_status url_id (.error e) q).error_message ≠ some "" := by
  refine ⟨rfl, rfl, rfl, rfl, by simp [check_url_status], ?_⟩
  simp [check_url_status, he]

theorem c5_probe_error_outcome_witness :
    (check_url_status 7 (.error "connection timed out") 0).status_code = 0 ∧
    (check_url_status 7 (.error "connection timed out") 0).response_time = 0 ∧
    (check_url_status 7 (.error "connection timed out") 0).is_up = false ∧
    (check_url_status 7 (.error "connection timed out") 0).error_message
        = some "connection timed out" ∧
    (check_url_status 7 (.error "connection timed out") 0).error_message ≠ none ∧
    (check_url_status 7 (.error "connection timed out") 0).error_message ≠ some "" :=
  c5_probe_error_outcome 7 "connection timed out" 0 (by decide)

/-- C6 counterexample: a response with status code 100 is recorded with
`is_up = true`, although 100 does not lie in [200, 400) — the code has
no lower bound on the up range. -/
theorem c6_counterexample :
    (check_url_status 1 (.ok ⟨100, ""⟩) 0).is_up = true ∧
    ¬(200 ≤ (check_url_status 1 (.ok ⟨100, ""⟩) 0).status_code) := by
  exact ⟨rfl, by decide⟩

/-- C6 amended: for a received response the recorded up flag is true iff
the status code is below 400; status codes below 200 also count as up,
while 4xx/5xx count as down (transport failures are covered by the
`.error` case, which always records down). -/
theorem c6_amended_up_iff_lt_400 (url_id code : Nat) (ct : String) (q : ℚ) :
    (check_url_status url_id (.ok ⟨code, ct⟩) q).is_up = true ↔ code < 400 := by
  simp [check_url_status]

/-- C10: `_guess_resource_type` is total with range
{JavaScript, Stylesheet, Image, HTML, Other} — never "Unknown"; the
content-type checks come first and in source order (javascript, css,
image/, html), the URL-extension checks run only when the content type
is empty or matches none of them (with ".webp" classifying as Image),
and "Other" is the default. -/
theorem c10_guess_resource_type_spec (url ct : String) :
    guess_resource_type url ct ≠ "Unknown" ∧
    (guess_resource_type url ct = "JavaScript" ∨
      guess_resource_type url ct = "Stylesheet" ∨
      guess_resource_type url ct = "Image" ∨
      guess_resource_type url ct = "HTML" ∨
      guess_resource_type url ct = "Other") ∧
    (ct ≠ "" → strContainsSub ct "javascript" = true →
      guess_resource_type url ct = "JavaScript") ∧
    (ct ≠ "" → strContainsSub ct "javascript" = false →
      strContainsSub ct "css" = true →
      guess_resource_type url ct = "Stylesheet") ∧
    (ct ≠ "" → strContainsSub ct "javascript" = false →
      strContainsSub ct "css" = false → strContainsSub ct "image/" = true →
      guess_resource_type url ct = "Image") ∧
    (ct ≠ "" → strContainsSub ct "javascript" = false →
      strContainsSub ct "css" = false → strContainsSub ct "image/" = false →
      strContainsSub ct "html" = true →
      guess_resource_type url ct = "HTML") ∧
    ((ct = "" ∨ (strContainsSub ct "javascript" = false ∧
        strContainsSub ct "css" = false ∧ strContainsSub ct "image/" = false ∧
        strContainsSub ct "html" = false)) →
      strEndsWith (strLower url) ".webp" = true →
      guess_resource_type url ct = "Image") ∧
    ((ct = "" ∨ (strContainsSub ct "javascript" = false ∧
        strContainsSub ct "css" = false ∧ strContainsSub ct "image/" = false ∧
        strContainsSub ct "html" = false)) →
      strEndsWith (strLower url) ".jpg" = false →
      strEndsWith (strLower url) ".jpeg" = false →
      strEndsWith (strLower url) ".png" = false →
      strEndsWith (strLower url) ".gif" = false →
      strEndsWith (strLower url) ".webp" = false →
      strEndsWith (strLower url) ".css" = false →
      strEndsWith (strLower url) ".js" = false →
      strEndsWith (strLower url) ".html" = false →
      strEndsWith (strLower url) ".htm" = false →
      guess_resource_type url ct = "Other") := by
  simp only [guess_resource_type]
  split_ifs <;> simp_all <;> intros <;> simp_all

theorem c10_guess_resource_type_spec_witness :
    guess_resource_type "https://a.example/pic.webp" "" = "Image" :=
  (c10_guess_resource_type_spec "https://a.example/pic.webp" "").2.2.2.2.2.2.1
    (Or.inl rfl) (by decide)

theorem runAlertTrace_cons (cfg : AlertConfig) (url : AlertURL) (t : Tick)
    (ts : List Tick) :
    runAlertTrace cfg url (t :: ts) =
      process_status_for_alerts cfg url t.is_up t.now t.post_ok ::
        runAlertTrace cfg
          (process_status_for_alerts cfg url t.is_up t.now t.post_ok).url ts := rfl

theorem process_disabled (cfg : AlertConfig) (url : AlertURL)
    (is_up : Bool) (now : Int) (post_ok : Bool)
    (h : url.alert_enabled = false ∨ url.is_one_time = true) :
    process_status_for_alerts cfg url is_up now post_ok
      = ⟨url, false, false, false, false⟩ := by
  rw [process_status_for_alerts, if_pos h]

theorem process_down_counter (cfg : AlertConfig) (url : AlertURL)
    (now : Int) (post_ok : Bool)
    (hen : url.alert_enabled = true) (hot : url.is_one_time = false) :
    (process_status_for_alerts cfg url false now post_ok).url.consecutive_failures
      = url.consecutive_failures + 1 := by
  obtain ⟨en, ot, rec, cf, la⟩ := url
  cases la <;>
    simp only [process_status_for_alerts, send_failure_alert] <;>
    split_ifs <;> simp_all

theorem failure_event_iff (cfg : AlertConfig) (url : AlertURL)
    (is_up : Bool) (now : Int) (post_ok : Bool) :
    (process_status_for_alerts cfg url is_up now post_ok).failure_event = true ↔
      (url.alert_enabled = true ∧ url.is_one_time = false ∧ is_up = false ∧
        url.consecutive_failures + 1 = cfg.failure_threshold) := by
  unfold process_status_for_alerts
  split
  · rename_i h
    constructor
    · intro hfe
      exact absurd hfe (by simp)
    · rintro ⟨h1, h2, -, -⟩
      rcases h with h | h
      · rw [h1] at h; exact absurd h (by simp)
      · rw [h2] at h; exact absurd h (by simp)
  · rename_i h
    have hen : url.alert_enabled = true := by
      cases hb : url.alert_enabled <;> simp_all
    have hot : url.is_one_time = false := by
      cases hb : url.is_one_time <;> simp_all
    split
    · rename_i hup
      split <;> simp [hen, hot, hup]
    · rename_i hup
      have hup' : is_up = false := by cases is_up <;> simp_all
      dsimp only
      split <;> rename_i hth <;> simp_all

theorem downstreak_no_event_after_threshold (cfg : AlertConfig) :
    ∀ (ticks : List Tick) (url : AlertURL),
      (∀ t ∈ ticks, t.is_up = false) →
      cfg.failure_threshold ≤ url.consecutive_failures →
      (runAlertTrace cfg url ticks).filter (fun r => r.failure_event) = [] := by
  intro ticks
  induction ticks with
  | nil => intro url _ _; simp [runAlertTrace]
  | cons t ts ih =>
      intro url hdown hle
      have ht : t.is_up = false := hdown t (by simp)
      have hdown' : ∀ t' ∈ ts, t'.is_up = false :=
        fun t' h' => hdown t' (by simp [h'])
      rw [runAlertTrace_cons, List.filter_cons]
      have hev : (process_status_for_alerts cfg url t.is_up t.now t.post_ok).failure_event
          = false := by
        cases hfe : (process_status_for_alerts cfg url t.is_up t.now t.post_ok).failure_event
        · rfl
        · exfalso
          obtain ⟨_, _, _, h4⟩ :=
            (failure_event_iff cfg url t.is_up t.now t.post_ok).1 hfe
          omega
      rw [hev]
      simp only [Bool.false_eq_true, if_false]
      apply ih _ hdown'
      by_cases hen : url.alert_enabled = false ∨ url.is_one_time = true
      · rw [process_disabled cfg url t.is_up t.now t.post_ok hen]
        exact hle
      · have hen1 : url.alert_enabled = true := by
          cases h : url.alert_enabled <;> simp_all
        have hot1 : url.is_one_time = false := by
          cases h : url.is_one_time <;> simp_all
        rw [ht, process_down_counter cfg url t.now t.post_ok hen1 hot1]
        omega

theorem downstreak_at_most_one_event (cfg : AlertConfig) :
    ∀ (ticks : List Tick) (url : AlertURL),
      (∀ t ∈ ticks, t.is_up = false) →
      ((runAlertTrace cfg url ticks).filter (fun r => r.failure_event)).length ≤ 1 := by
  intro ticks
  induction ticks with
  | nil => intro url _; simp [runAlertTrace]
  | cons t ts ih =>
      intro url hdown
      have ht : t.is_up = false := hdown t (by simp)
      have hdown' : ∀ t' ∈ ts, t'.is_up = false :=
        fun t' h' => hdown t' (by simp [h'])
      rw [runAlertTrace_cons, List.filter_cons]
      cases hfe : (process_status_for_alerts cfg url t.is_up t.now t.post_ok).failure_event
      · simp only [Bool.false_eq_true, if_false]
        exact ih _ hdown'
      · obtain ⟨hen1, hot1, _, h4⟩ :=
          (failure_event_iff cfg url t.is_up t.now t.post_ok).1 hfe
        have hcf : (process_status_for_alerts cfg url t.is_up t.now t.post_ok).url.consecutive_failures
            = url.consecutive_failures + 1 := by
          rw [ht]; exact process_down_counter cfg url t.now t.post_ok hen1 hot1
        have htail :
            (runAlertTrace cfg
              (process_status_for_alerts cfg url t.is_up t.now t.post_ok).url ts).filter
                (fun r => r.failure_event) = [] := by
          apply downstreak_no_event_after_threshold cfg ts _ hdown'
          rw [hcf]; omega
        simp [htail]

/-- C1: for an alert-enabled, non-one-time target, the Failure event
(the `send_failure_alert` invocation) fires on a status iff the status
is down and the increment takes `consecutive_failures` from
threshold-1 to exactly the threshold; and along any contiguous run of
down outcomes the event fires at most once, however long the run. -/
theorem c1_failure_alert_once_per_streak (cfg : AlertConfig) (url : AlertURL)
    (is_up : Bool) (now : Int) (post_ok : Bool) (ticks : List Tick)
    (hdown : ∀ t ∈ ticks, t.is_up = false) :
    ((process_status_for_alerts cfg url is_up now post_ok).failure_event = true ↔
      (url.alert_enabled = true ∧ url.is_one_time = false ∧ is_up = false ∧
        url.consecutive_failures + 1 = cfg.failure_threshold)) ∧
    ((runAlertTrace cfg url ticks).filter (fun r => r.failure_event)).length ≤ 1 :=
  ⟨failure_event_iff cfg url is_up now post_ok,
    downstreak_at_most_one_event cfg ticks url hdown⟩

theorem c1_failure_alert_once_per_streak_witness :
    ((process_status_for_alerts ⟨"w", 2, 15⟩ ⟨true, false, true, 1, none⟩
        false 0 true).failure_event = true ↔
      ((⟨true, false, true, 1, none⟩ : AlertURL).alert_enabled = true ∧
        (⟨true, false, true, 1, none⟩ : AlertURL).is_one_time = false ∧
        false = false ∧
        (⟨true, false, true, 1, none⟩ : AlertURL).consecutive_failures + 1
          = (⟨"w", 2, 15⟩ : AlertConfig).failure_threshold)) ∧
    ((runAlertTrace ⟨"w", 2, 15⟩ ⟨true, false, true, 1, none⟩
        [⟨false, 0, true⟩, ⟨false, 1, true⟩, ⟨false, 2, true⟩]).filter
      (fun r => r.failure_event)).length ≤ 1 :=
  c1_failure_alert_once_per_streak ⟨"w", 2, 15⟩ ⟨true, false, true, 1, none⟩
    false 0 true [⟨false, 0, true⟩, ⟨false, 1, true⟩, ⟨false, 2, true⟩]
    (by decide)

/-- C3: for an alert-enabled, non-one-time target, an up status emits
the Recovery event (invokes `send_recovery_alert`) iff the failure
counter has reached the threshold (the derived alerting state) and
`alert_recovery` is enabled; the emission reads neither the clock nor
`last_alerted_at` (no cooldown gate, conjunct 4); the counter is reset
to 0 on every up status whether or not the event fired; and no Failure
event fires on an up status. -/
theorem c3_recovery_alert (cfg : AlertConfig) (url : AlertURL) (now : Int)
    (post_ok : Bool)
    (hen : url.alert_enabled = true) (hot : url.is_one_time = false) :
    ((process_status_for_alerts cfg url true now post_ok).recovery_event = true ↔
      (cfg.failure_threshold ≤ url.consecutive_failures ∧
        url.alert_recovery = true)) ∧
    (process_status_for_alerts cfg url true now post_ok).url.consecutive_failures = 0 ∧
    (process_status_for_alerts cfg url true now post_ok).url.last_alerted_at
      = url.last_alerted_at ∧
    (∀ la : Option Int,
      (process_status_for_alerts cfg { url with last_alerted_at := la }
          true now post_ok).recovery_event
        = (process_status_for_alerts cfg url true now post_ok).recovery_event) ∧
    (process_status_for_alerts cfg url true now post_ok).failure_event = false := by
  obtain ⟨en, ot, rec, cf, la0⟩ := url
  simp only at hen hot
  subst hen hot
  refine ⟨?_, ?_, ?_, ?_, ?_⟩ <;>
    · simp only [process_status_for_alerts]
      split_ifs <;> simp_all

theorem c3_recovery_alert_witness :
    ((process_status_for_alerts ⟨"w", 2, 15⟩ ⟨true, false, true, 3, some 0⟩
        true 100 true).recovery_event = true ↔
      ((⟨"w", 2, 15⟩ : AlertConfig).failure_threshold ≤
          (⟨true, false, true, 3, some 0⟩ : AlertURL).consecutive_failures ∧
        (⟨true, false, true, 3, some 0⟩ : AlertURL).alert_recovery = true)) ∧
    (process_status_for_alerts ⟨"w", 2, 15⟩ ⟨true, false, true, 3, some 0⟩
        true 100 true).url.consecutive_failures = 0 ∧
    (process_status_for_alerts ⟨"w", 2, 15⟩ ⟨true, false, true, 3, some 0⟩
        true 100 true).url.last_alerted_at
      = (⟨true, false, true, 3, some 0⟩ : AlertURL).last_alerted_at ∧
    (∀ la : Option Int,
      (process_status_for_alerts ⟨"w", 2, 15⟩
          { (⟨true, false, true, 3, some 0⟩ : AlertURL) with last_alerted_at := la }
          true 100 true).recovery_event
        = (process_status_for_alerts ⟨"w", 2, 15⟩ ⟨true, false, true, 3, some 0⟩
            true 100 true).recovery_event) ∧
    (process_status_for_alerts ⟨"w", 2, 15⟩ ⟨true, false, true, 3, some 0⟩
        true 100 true).failure_event = false :=
  c3_recovery_alert ⟨"w", 2, 15⟩ ⟨true, false, true, 3, some 0⟩ 100 true
    (by decide) (by decide)

/-- C4 counterexample: at a threshold crossing outside the cooldown
window (no previous alert) with a failing webhook POST, the Failure
event fires but `last_alerted_at` is NOT set to `now` — the code sets
it only after `raise_for_status` succeeds, so the claimed
delivery-independent commit of `last_alerted_at = now` is false. -/
theorem c4_counterexample :
    (process_status_for_alerts ⟨"w", 2, 15⟩ ⟨true, false, true, 1, none⟩
        false 100 false).failure_event = true ∧
    (process_status_for_alerts ⟨"w", 2, 15⟩ ⟨true, false, true, 1, none⟩
        false 100 false).failure_delivered = false ∧
    (process_status_for_alerts ⟨"w", 2, 15⟩ ⟨true, false, true, 1, none⟩
        false 100 false).url.last_alerted_at ≠ some 100 := by decide

/-- C4 amended: when the threshold is crossed outside the cooldown
window with a webhook configured, the Failure event fires and the
counter update is committed regardless of delivery; a delivery failure
is swallowed (the send returns False, nothing is rolled back) but
`last_alerted_at` is advanced to `now` only when the POST succeeds — on
a failed POST it keeps its previous value. -/
theorem c4_amended_commit_semantics (cfg : AlertConfig) (url : AlertURL)
    (now : Int) (post_ok : Bool)
    (hen : url.alert_enabled = true) (hot : url.is_one_time = false)
    (hth : url.consecutive_failures + 1 = cfg.failure_threshold)
    (hwh : cfg.slack_webhook_url ≠ "")
    (hcool : ∀ t, url.last_alerted_at = some t →
      (cfg.cooldown_minutes : Int) ≤ now - t) :
    (process_status_for_alerts cfg url false now post_ok).failure_event = true ∧
    (process_status_for_alerts cfg url false now post_ok).url.consecutive_failures
      = cfg.failure_threshold ∧
    (post_ok = true →
      (process_status_for_alerts cfg url false now post_ok).failure_delivered = true ∧
      (process_status_for_alerts cfg url false now post_ok).url.last_alerted_at
        = some now) ∧
    (post_ok = false →
      (process_status_for_alerts cfg url false now post_ok).failure_delivered = false ∧
      (process_status_for_alerts cfg url false now post_ok).url.last_alerted_at
        = url.last_alerted_at) := by
  obtain ⟨en, ot, rec, cf, la0⟩ := url
  simp only at hen hot hth
  subst hen hot
  cases la0 with
  | none =>
      simp only [process_status_for_alerts, send_failure_alert]
      split_ifs <;> simp_all
  | some t0 =>
      have hge := hcool t0 rfl
      simp only [process_status_for_alerts, send_failure_alert]
      split_ifs <;> simp_all <;> omega

theorem c4_amended_commit_semantics_witness :
    (process_status_for_alerts ⟨"w", 2, 15⟩ ⟨true, false, true, 1, none⟩
        false 100 false).failure_event = true ∧
    (process_status_for_alerts ⟨"w", 2, 15⟩ ⟨true, false, true, 1, none⟩
        false 100 false).url.consecutive_failures
      = (⟨"w", 2, 15⟩ : AlertConfig).failure_threshold ∧
    (false = true →
      (process_status_for_alerts ⟨"w", 2, 15⟩ ⟨true, false, true, 1, none⟩
          false 100 false).failure_delivered = true ∧
      (process_status_for_alerts ⟨"w", 2, 15⟩ ⟨true, false, true, 1, none⟩
          false 100 false).url.last_alerted_at = some 100) ∧
    (false = false →
      (process_status_for_alerts ⟨"w", 2, 15⟩ ⟨true, false, true, 1, none⟩
          false 100 false).failure_delivered = false ∧
      (process_status_for_alerts ⟨"w", 2, 15⟩ ⟨true, false, true, 1, none⟩
          false 100 false).url.last_alerted_at
        = (⟨true, false, true, 1, none⟩ : AlertURL).last_alerted_at) :=
  c4_amended_commit_semantics ⟨"w", 2, 15⟩ ⟨true, false, true, 1, none⟩ 100 false
    (by decide) (by decide) (by decide) (by decide)
    (fun t ht => Option.noConfusion ht)

theorem stateAfterTrace_cons (cfg : AlertConfig) (url : AlertURL) (t : Tick)
    (ts : List Tick) :
    stateAfterTrace cfg url (t :: ts) =
      stateAfterTrace cfg
        (process_status_for_alerts cfg url t.is_up t.now t.post_ok).url ts := rfl

theorem stateAfterTrace_append (cfg : AlertConfig) :
    ∀ (xs ys : List Tick) (url : AlertURL),
      stateAfterTrace cfg url (xs ++ ys)
        = stateAfterTrace cfg (stateAfterTrace cfg url xs) ys := by
  intro xs
  induction xs with
  | nil => intro ys url; rfl
  | cons x xs ih =>
      intro ys url
      rw [List.cons_append, stateAfterTrace_cons, stateAfterTrace_cons]
      exact ih ys _

theorem delivered_sets_last (cfg : AlertConfig) (url : AlertURL)
    (is_up : Bool) (now : Int) (post_ok : Bool)
    (h : (process_status_for_alerts cfg url is_up now post_ok).failure_delivered = true) :
    (process_status_for_alerts cfg url is_up now post_ok).url.last_alerted_at
      = some now := by
  obtain ⟨en, ot, rec, cf, la⟩ := url
  cases la <;>
    simp only [process_status_for_alerts, send_failure_alert] at h ⊢ <;>
    split_ifs at h ⊢ <;> simp_all

theorem not_delivered_keeps_last (cfg : AlertConfig) (url : AlertURL)
    (is_up : Bool) (now : Int) (post_ok : Bool)
    (h : (process_status_for_alerts cfg url is_up now post_ok).failure_delivered = false) :
    (process_status_for_alerts cfg url is_up now post_ok).url.last_alerted_at
      = url.last_alerted_at := by
  obtain ⟨en, ot, rec, cf, la⟩ := url
  cases la <;>
    simp only [process_status_for_alerts, send_failure_alert] at h ⊢ <;>
    split_ifs at h ⊢ <;> simp_all

theorem delivered_cooldown_ok (cfg : AlertConfig) (url : AlertURL)
    (is_up : Bool) (now : Int) (post_ok : Bool) (t : Int)
    (hla : url.last_alerted_at = some t)
    (h : (process_status_for_alerts cfg url is_up now post_ok).failure_delivered = true) :
    t + (cfg.cooldown_minutes : Int) ≤ now := by
  obtain ⟨en, ot, rec, cf, la⟩ := url
  simp only at hla
  subst hla
  simp only [process_status_for_alerts, send_failure_alert] at h
  split_ifs at h <;> simp_all <;> omega

theorem delivery_separation_aux (cfg : AlertConfig) :
    ∀ (xs : List Tick) (url : AlertURL) (b : Int) (tj : Tick) (ys : List Tick),
      url.last_alerted_at = some b →
      (∀ t ∈ xs ++ tj :: ys, b ≤ t.now) →
      List.Pairwise (fun a b' => a.now ≤ b'.now) (xs ++ tj :: ys) →
      (process_status_for_alerts cfg (stateAfterTrace cfg url xs)
          tj.is_up tj.now tj.post_ok).failure_delivered = true →
      b + (cfg.cooldown_minutes : Int) ≤ tj.now := by
  intro xs
  induction xs with
  | nil =>
      intro url b tj ys hla hmem _ hdel
      have hs : stateAfterTrace cfg url [] = url := rfl
      rw [hs] at hdel
      have h := delivered_cooldown_ok cfg url tj.is_up tj.now tj.post_ok b hla hdel
      omega
  | cons x xs ih =>
      intro url b tj ys hla hmem hpw hdel
      have hx : b ≤ x.now := hmem x (by simp)
      have hpw' : List.Pairwise (fun a b' => a.now ≤ b'.now) (xs ++ tj :: ys) :=
        (List.pairwise_cons.mp hpw).2
      have hxall : ∀ t ∈ xs ++ tj :: ys, x.now ≤ t.now :=
        (List.pairwise_cons.mp hpw).1
      rw [stateAfterTrace_cons] at hdel
      cases hdel' : (process_status_for_alerts cfg url x.is_up x.now x.post_ok).failure_delivered
      · have hlast := not_delivered_keeps_last cfg url x.is_up x.now x.post_ok hdel'
        rw [hla] at hlast
        have hmem' : ∀ t ∈ xs ++ tj :: ys, b ≤ t.now := fun t h => hmem t (by simp [h])
        exact ih _ b tj ys hlast hmem' hpw' hdel
      · have hlast := delivered_sets_last cfg url x.is_up x.now x.post_ok hdel'
        have h1 := ih _ x.now tj ys hlast hxall hpw' hdel
        omega

/-- C2: (a) a threshold crossing inside the cooldown window (previous
alert at `t`, `now - t < cooldown`) fires the Failure event but
delivers nothing; the alert is dropped, not deferred: `last_alerted_at`
stays `some t` (so nothing is retried later) while
`consecutive_failures` still increments to the threshold (the derived
alerting state holds).  (b) along any tick trace with nondecreasing
clock, two delivered failure notifications are at least the cooldown
apart; hence two crossings within one cooldown window yield at most one
delivered notification. -/
theorem c2_cooldown_suppression (cfg : AlertConfig) (url : AlertURL) :
    (∀ (t now : Int) (post_ok : Bool),
      url.alert_enabled = true → url.is_one_time = false →
      url.last_alerted_at = some t →
      now - t < (cfg.cooldown_minutes : Int) →
      url.consecutive_failures + 1 = cfg.failure_threshold →
      (process_status_for_alerts cfg url false now post_ok).failure_event = true ∧
      (process_status_for_alerts cfg url false now post_ok).failure_delivered = false ∧
      (process_status_for_alerts cfg url false now post_ok).url.last_alerted_at
        = some t ∧
      (process_status_for_alerts cfg url false now post_ok).url.consecutive_failures
        = cfg.failure_threshold) ∧
    (∀ (l1 l2 l3 : List Tick) (ti tj : Tick),
      List.Pairwise (fun a b => a.now ≤ b.now) (l1 ++ ti :: l2 ++ tj :: l3) →
      (process_status_for_alerts cfg (stateAfterTrace cfg url l1)
          ti.is_up ti.now ti.post_ok).failure_delivered = true →
      (process_status_for_alerts cfg (stateAfterTrace cfg url (l1 ++ ti :: l2))
          tj.is_up tj.now tj.post_ok).failure_delivered = true →
      ti.now + (cfg.cooldown_minutes : Int) ≤ tj.now) := by
  constructor
  · intro t now post_ok hen hot hla hlt hth
    obtain ⟨en, ot, rec, cf, la⟩ := url
    simp only at hen hot hla hth
    subst hen hot hla
    refine ⟨?_, ?_, ?_, ?_⟩ <;>
      · simp only [process_status_for_alerts, send_failure_alert]
        split_ifs <;> (try simp_all) <;> omega
  · intro l1 l2 l3 ti tj hpw hdi hdj
    have hlast := delivered_sets_last cfg (stateAfterTrace cfg url l1)
      ti.is_up ti.now ti.post_ok hdi
    have hsplit : stateAfterTrace cfg url (l1 ++ ti :: l2)
        = stateAfterTrace cfg
            (process_status_for_alerts cfg (stateAfterTrace cfg url l1)
              ti.is_up ti.now ti.post_ok).url l2 := by
      rw [stateAfterTrace_append, stateAfterTrace_cons]
    rw [hsplit] at hdj
    have hsubl : List.Sublist (ti :: (l2 ++ tj :: l3)) (l1 ++ ti :: l2 ++ tj :: l3) := by
      rw [List.append_assoc, List.cons_append]
      exact List.sublist_append_right l1 _
    have hsub : List.Pairwise (fun a b => a.now ≤ b.now) (ti :: (l2 ++ tj :: l3)) :=
      hpw.sublist hsubl
    obtain ⟨hgt, hpw'⟩ := List.pairwise_cons.mp hsub
    exact delivery_separation_aux cfg l2 _ ti.now tj l3 hlast hgt hpw' hdj

theorem c2_cooldown_suppression_witness :
    ((process_status_for_alerts ⟨"w", 2, 15⟩ ⟨true, false, true, 1, some 90⟩
        false 100 true).failure_event = true ∧
      (process_status_for_alerts ⟨"w", 2, 15⟩ ⟨true, false, true, 1, some 90⟩
        false 100 true).failure_delivered = false ∧
      (process_status_for_alerts ⟨"w", 2, 15⟩ ⟨true, false, true, 1, some 90⟩
        false 100 true).url.last_alerted_at = some 90 ∧
      (process_status_for_alerts ⟨"w", 2, 15⟩ ⟨true, false, true, 1, some 90⟩
        false 100 true).url.consecutive_failures
        = (⟨"w", 2, 15⟩ : AlertConfig).failure_threshold) ∧
    (⟨false, 0, true⟩ : Tick).now
        + (((⟨"w", 2, 15⟩ : AlertConfig).cooldown_minutes : Int) : Int)
      ≤ (⟨false, 20, true⟩ : Tick).now :=
  ⟨(c2_cooldown_suppression ⟨"w", 2, 15⟩ ⟨true, false, true, 1, some 90⟩).1
      90 100 true rfl rfl rfl (by decide) rfl,
    (c2_cooldown_suppression ⟨"w", 2, 15⟩ ⟨true, false, true, 1, none⟩).2
      [] [⟨true, 5, true⟩, ⟨false, 10, true⟩] [] ⟨false, 0, true⟩ ⟨false, 20, true⟩
      (by decide) (by decide) (by decide)⟩


theorem lookup_append_eq (l1 l2 : List (Nat × SchedJob)) (k : Nat) :
    (l1 ++ l2).lookup k =
      match l1.lookup k with
      | some v => some v
      | none => l2.lookup k := by
  induction l1 with
  | nil => simp [List.lookup]
  | cons q l1 ih =>
      obtain ⟨a, b⟩ := q
      simp only [List.cons_append, List.lookup]
      cases hk : (k == a) <;> simp [ih]

theorem lookup_filter_out (m : List (Nat × SchedJob)) (k : Nat) :
    (m.filter (fun p => !(p.1 == k))).lookup k = none := by
  induction m with
  | nil => rfl
  | cons q m ih =>
      obtain ⟨a, b⟩ := q
      rw [List.filter_cons]
      by_cases hak : a = k
      · subst hak
        simpa using ih
      · have h1 : ((a, b).1 == k) = false := by simpa using hak
        simp only [h1, Bool.not_false, if_true]
        have h2 : (k == a) = false := by
          simp only [beq_eq_false_iff_ne]
          exact fun h => hak h.symm
        simp [List.lookup, h2, ih]

theorem lookup_filter_ne (m : List (Nat × SchedJob)) (k k' : Nat)
    (h : ¬k' = k) :
    (m.filter (fun p => !(p.1 == k))).lookup k' = m.lookup k' := by
  induction m with
  | nil => rfl
  | cons q m ih =>
      obtain ⟨a, b⟩ := q
      rw [List.filter_cons]
      by_cases hak : a = k
      · subst hak
        have h2 : (k' == a) = false := by simpa using h
        simp only [beq_self_eq_true, Bool.not_true, if_false] at *
        simp [List.lookup, h2, ih]
      · have h1 : ((a, b).1 == k) = false := by simpa using hak
        simp only [h1, Bool.not_false, if_true]
        simp only [List.lookup]
        cases hk' : (k' == a) <;> simp [ih]

theorem lookup_none_keys (m : List (Nat × SchedJob)) (k : Nat)
    (h : m.lookup k = none) : ∀ p ∈ m, ¬p.1 = k := by
  induction m with
  | nil => intro p hp; cases hp
  | cons q m ih =>
      obtain ⟨a, b⟩ := q
      intro p hp
      simp only [List.lookup] at h
      cases hk : (k == a)
      · rw [hk] at h
        rcases List.mem_cons.mp hp with hp | hp
        · subst hp
          simp only []
          intro hak
          subst hak
          simp at hk
        · exact ih h p hp
      · rw [hk] at h; cases h

theorem lookup_jobsInsert_self (m : List (Nat × SchedJob)) (k : Nat)
    (v : SchedJob) : (jobsInsert m k v).lookup k = some v := by
  unfold jobsInsert
  rw [lookup_append_eq, lookup_filter_out]
  simp [List.lookup]

theorem lookup_jobsInsert_other (m : List (Nat × SchedJob)) (k : Nat)
    (v : SchedJob) (k' : Nat) (h : ¬k' = k) :
    (jobsInsert m k v).lookup k' = m.lookup k' := by
  unfold jobsInsert
  rw [lookup_append_eq, lookup_filter_ne m k k' h]
  cases hl : m.lookup k'
  · have h2 : (k' == k) = false := by simpa using h
    simp [List.lookup, h2]
  · rfl

theorem mem_jobsInsert (m : List (Nat × SchedJob)) (k : Nat) (v : SchedJob)
    (p : Nat × SchedJob) (hp : p ∈ jobsInsert m k v) :
    p = (k, v) ∨ (p ∈ m ∧ ¬p.1 = k) := by
  unfold jobsInsert at hp
  rcases List.mem_append.mp hp with hp | hp
  · have h := List.mem_filter.mp hp
    exact Or.inr ⟨h.1, by simpa using h.2⟩
  · exact Or.inl (by simpa using hp)

theorem keys_jobsInsert_nodup (m : List (Nat × SchedJob)) (k : Nat)
    (v : SchedJob) (h : (m.map Prod.fst).Nodup) :
    ((jobsInsert m k v).map Prod.fst).Nodup := by
  unfold jobsInsert
  rw [List.map_append]
  rw [List.nodup_append]
  refine ⟨?_, ?_, ?_⟩
  · exact List.Nodup.sublist (List.Sublist.map _ (List.filter_sublist m)) h
  · simp
  · intro x hx
    obtain ⟨p, hp, hpx⟩ := List.mem_map.mp hx
    have := (List.mem_filter.mp hp).2
    simp only [List.map_cons, List.map_nil, List.mem_cons, List.not_mem_nil]
    intro hxk
    rcases hxk with hxk | hxk
    · subst hxk
      rw [hpx] at this
      simp at this
    · cases hxk

theorem count_keys_jobsInsert (m : List (Nat × SchedJob)) (k : Nat)
    (v : SchedJob) : ((jobsInsert m k v).map Prod.fst).count k = 1 := by
  unfold jobsInsert
  rw [List.map_append, List.count_append]
  have h0 : ((m.filter (fun p => !(p.1 == k))).map Prod.fst).count k = 0 := by
    rw [List.count_eq_zero]
    intro hmem
    obtain ⟨p, hp, hpk⟩ := List.mem_map.mp hmem
    have := (List.mem_filter.mp hp).2
    rw [hpk] at this
    simp at this
  rw [h0]
  simp

theorem start_monitoring_jobs (st : MonitorState) (u : URLRow) :
    (start_monitoring st u).jobs
      = jobsInsert st.jobs u.id ⟨st.next_token, u.check_frequency, u.id, u.url⟩ := rfl

theorem start_monitoring_checks (st : MonitorState) (u : URLRow) :
    (start_monitoring st u).checks = st.checks ++ [(u.id, u.url)] := rfl

theorem start_monitoring_cancelled_some (st : MonitorState) (u : URLRow)
    (j : SchedJob) (hl : st.jobs.lookup u.id = some j) :
    (start_monitoring st u).cancelled = st.cancelled ++ [j.token] := by
  unfold start_monitoring
  rw [hl]

theorem start_monitoring_cancelled_none (st : MonitorState) (u : URLRow)
    (hl : st.jobs.lookup u.id = none) :
    (start_monitoring st u).cancelled = st.cancelled := by
  unfold start_monitoring
  rw [hl]

/-- C8: `start_monitoring` is an idempotent replace.  Afterwards the
jobs dict binds the target id to the freshly registered interval job at
`check_frequency` seconds and holds exactly one binding for that id;
any previously held job for the id has been cancelled (`.remove()`);
every other id keeps its binding; and exactly one synchronous
`check_url` is logged before the call returns, so a fresh target has a
recorded outcome without waiting an interval. -/
theorem c8_start_monitoring_spec (st : MonitorState) (u : URLRow) :
    (start_monitoring st u).jobs.lookup u.id
        = some ⟨st.next_token, u.check_frequency, u.id, u.url⟩ ∧
    ((start_monitoring st u).jobs.map Prod.fst).count u.id = 1 ∧
    (∀ k, ¬k = u.id → (start_monitoring st u).jobs.lookup k = st.jobs.lookup k) ∧
    (∀ j, st.jobs.lookup u.id = some j →
      (start_monitoring st u).cancelled = st.cancelled ++ [j.token]) ∧
    (start_monitoring st u).checks = st.checks ++ [(u.id, u.url)] := by
  refine ⟨?_, ?_, ?_, ?_, ?_⟩
  · rw [start_monitoring_jobs]
    exact lookup_jobsInsert_self _ _ _
  · rw [start_monitoring_jobs]
    exact count_keys_jobsInsert _ _ _
  · intro k hk
    rw [start_monitoring_jobs]
    exact lookup_jobsInsert_other _ _ _ _ hk
  · intro j hj
    exact start_monitoring_cancelled_some st u j hj
  · exact start_monitoring_checks st u

theorem c8_start_monitoring_spec_witness :
    (start_monitoring ⟨[(1, ⟨0, 60, 1, "a"⟩)], [], [], 1⟩
        ⟨1, "a", "site a", true, 30, false⟩).jobs.lookup
        (⟨1, "a", "site a", true, 30, false⟩ : URLRow).id
      = some ⟨(⟨[(1, ⟨0, 60, 1, "a"⟩)], [], [], 1⟩ : MonitorState).next_token,
          (⟨1, "a", "site a", true, 30, false⟩ : URLRow).check_frequency,
          (⟨1, "a", "site a", true, 30, false⟩ : URLRow).id,
          (⟨1, "a", "site a", true, 30, false⟩ : URLRow).url⟩ ∧
    ((start_monitoring ⟨[(1, ⟨0, 60, 1, "a"⟩)], [], [], 1⟩
        ⟨1, "a", "site a", true, 30, false⟩).jobs.map Prod.fst).count
        (⟨1, "a", "site a", true, 30, false⟩ : URLRow).id = 1 ∧
    (∀ k, ¬k = (⟨1, "a", "site a", true, 30, false⟩ : URLRow).id →
      (start_monitoring ⟨[(1, ⟨0, 60, 1, "a"⟩)], [], [], 1⟩
        ⟨1, "a", "site a", true, 30, false⟩).jobs.lookup k
        = (⟨[(1, ⟨0, 60, 1, "a"⟩)], [], [], 1⟩ : MonitorState).jobs.lookup k) ∧
    (∀ j, (⟨[(1, ⟨0, 60, 1, "a"⟩)], [], [], 1⟩ : MonitorState).jobs.lookup
        (⟨1, "a", "site a", true, 30, false⟩ : URLRow).id = some j →
      (start_monitoring ⟨[(1, ⟨0, 60, 1, "a"⟩)], [], [], 1⟩
        ⟨1, "a", "site a", true, 30, false⟩).cancelled
        = (⟨[(1, ⟨0, 60, 1, "a"⟩)], [], [], 1⟩ : MonitorState).cancelled ++ [j.token]) ∧
    (start_monitoring ⟨[(1, ⟨0, 60, 1, "a"⟩)], [], [], 1⟩
        ⟨1, "a", "site a", true, 30, false⟩).checks
      = (⟨[(1, ⟨0, 60, 1, "a"⟩)], [], [], 1⟩ : MonitorState).checks
        ++ [((⟨1, "a", "site a", true, 30, false⟩ : URLRow).id,
             (⟨1, "a", "site a", true, 30, false⟩ : URLRow).url)] :=
  c8_start_monitoring_spec ⟨[(1, ⟨0, 60, 1, "a"⟩)], [], [], 1⟩
    ⟨1, "a", "site a", true, 30, false⟩

theorem insert_if_new_nodup (db : DB) (r : SubsequentRequestRec)
    (h : NoDupPairs db) : NoDupPairs (insert_if_new db r) := by
  unfold insert_if_new
  split
  · exact h
  · rename_i hex
    unfold NoDupPairs at h ⊢
    rw [List.pairwise_append]
    refine ⟨h, by simp, ?_⟩
    intro a ha b hb
    simp only [List.mem_singleton] at hb
    subst hb
    intro hcon
    apply hex
    unfold url_exists_for_monitor
    rw [List.any_eq_true]
    exact ⟨a, ha, by simp [hcon.1, hcon.2]⟩

theorem foldl_insert_if_new_nodup {α : Type} (g : α → SubsequentRequestRec) :
    ∀ (l : List α) (db : DB), NoDupPairs db →
      NoDupPairs (l.foldl (fun acc x => insert_if_new acc (g x)) db) := by
  intro l
  induction l with
  | nil => intro db h; exact h
  | cons x l ih =>
      intro db h
      rw [List.foldl_cons]
      exact ih _ (insert_if_new_nodup _ _ h)

theorem fallback_capture_method_nodup (env : FallbackEnv) (db : DB)
    (url_id : Nat) (url : String) (h : NoDupPairs db) :
    NoDupPairs (fallback_capture_method env db url_id url) := by
  unfold fallback_capture_method
  dsimp only
  split_ifs <;>
    first
      | exact insert_if_new_nodup _ _ h
      | exact foldl_insert_if_new_nodup
          (fun r : ResourceRef =>
            (⟨url_id, r.url, env.resolve_ip r.url, r.resource_type,
              r.state_type, r.protocol⟩ : SubsequentRequestRec)) _ _ h

theorem fallback_or_last_resort_no_raise (env : CaptureEnv) (db : DB)
    (url_id : Nat) (url : String) (hfb : env.fallback_raises = false) :
    fallback_or_last_resort env db url_id url
      = fallback_capture_method env.fallback_env db url_id url := by
  unfold fallback_or_last_resort
  rw [hfb]
  simp

/-- C7 counterexample: the last-resort handler of
`capture_subsequent_requests` (lines 437-449) inserts its
"Could not determine" placeholder without consulting
`_url_exists_for_monitor`.  With an empty URL (which raises ValueError
into the outer handler) and a fallback method that itself raises, two
passes over the same target insert two records with the identical
(url_id, target_url) pair — refuting the claim that every branch checks
existence before inserting. -/
theorem c7_counterexample :
    ((capture_subsequent_requests
        ⟨true, true, false, true, false, true, [],
          ⟨true, false, true, true, "text/html", [], [], [], fun _ => "Unknown"⟩, true⟩
        (capture_subsequent_requests
          ⟨true, true, false, true, false, true, [],
            ⟨true, false, true, true, "text/html", [], [], [], fun _ => "Unknown"⟩, true⟩
          [] 1 "") 1 "").filter
      (fun r => r.url_id == 1 && r.target_url == "")).length = 2 := by decide

/-- C7 amended: every insertion site of the discovery pass — the
capture branch and every fallback branch — checks existence by
(url_id, target_url) before inserting, EXCEPT the last-resort handler
reached only when the fallback method itself raises; provided that
handler is not reached (`fallback_raises = false`), any number of
repeated checks preserves the no-duplicate-pairs invariant. -/
theorem c7_amended_dedup (env : CaptureEnv) (db : DB) (url_id : Nat)
    (url : String) (hfb : env.fallback_raises = false) (h : NoDupPairs db) :
    NoDupPairs (capture_subsequent_requests env db url_id url) := by
  unfold capture_subsequent_requests
  split_ifs <;>
    first
      | (rw [fallback_or_last_resort_no_raise env db url_id url hfb]
         exact fallback_capture_method_nodup _ _ _ _ h)
      | exact foldl_insert_if_new_nodup
          (fun req : ParsedReq =>
            (⟨url_id, req.url, req.ip, req.resource_type,
              req.state_type, req.protocol⟩ : SubsequentRequestRec)) _ _ h

theorem c7_amended_dedup_witness :
    NoDupPairs (capture_subsequent_requests
      ⟨true, true, false, true, false, true, [],
        ⟨true, false, true, true, "text/html", [], [], [], fun _ => "Unknown"⟩, false⟩
      [] 1 "") :=
  c7_amended_dedup
    ⟨true, true, false, true, false, true, [],
      ⟨true, false, true, true, "text/html", [], [], [], fun _ => "Unknown"⟩, false⟩
    [] 1 "" rfl List.Pairwise.nil

theorem lookup_some_pair_mem (m : List (Nat × SchedJob)) (k : Nat) (v : SchedJob)
    (h : m.lookup k = some v) : (k, v) ∈ m := by
  induction m with
  | nil => cases h
  | cons q m ih =>
      obtain ⟨a, b⟩ := q
      simp only [List.lookup] at h
      cases hk : (k == a)
      · rw [hk] at h
        exact List.mem_cons_of_mem _ (ih h)
      · rw [hk] at h
        have hka : k = a := by simpa using hk
        have hbv : b = v := by simpa using h
        subst hka hbv
        exact List.mem_cons_self _ _

theorem stop_monitoring_jobs_mem (st : MonitorState) (id : Nat)
    (p : Nat × SchedJob) (hp : p ∈ (stop_monitoring st id).1.jobs) :
    p ∈ st.jobs ∧ ¬p.1 = id := by
  unfold stop_monitoring at hp
  split at hp
  · simp only at hp
    have h := List.mem_filter.mp hp
    exact ⟨h.1, by simpa using h.2⟩
  · rename_i hj
    exact ⟨hp, lookup_none_keys st.jobs id hj p hp⟩

theorem stop_monitoring_keys_nodup (st : MonitorState) (id : Nat)
    (h : (st.jobs.map Prod.fst).Nodup) :
    ((stop_monitoring st id).1.jobs.map Prod.fst).Nodup := by
  unfold stop_monitoring
  split
  · exact List.Nodup.sublist (List.Sublist.map _ (List.filter_sublist _)) h
  · exact h

theorem update_frequency_jobs_mem (st : MonitorState) (u : URLRow)
    (p : Nat × SchedJob) (hp : p ∈ (update_frequency st u).1.jobs) :
    (p.1 = u.id ∧ (st.jobs.lookup u.id).isSome = true) ∨
      (p ∈ st.jobs ∧ ¬p.1 = u.id) := by
  unfold update_frequency at hp
  split at hp
  · rename_i hs
    simp only at hp
    rw [start_monitoring_jobs] at hp
    rcases mem_jobsInsert _ _ _ _ hp with hq | ⟨hq, hne⟩
    · left
      exact ⟨by rw [hq], hs⟩
    · exact Or.inr ⟨(stop_monitoring_jobs_mem st u.id p hq).1, hne⟩
  · rename_i hs
    have hnone : st.jobs.lookup u.id = none := by
      cases hl : st.jobs.lookup u.id
      · rfl
      · rw [hl] at hs; simp at hs
    exact Or.inr ⟨hp, lookup_none_keys st.jobs u.id hnone p hp⟩

theorem update_frequency_keys_nodup (st : MonitorState) (u : URLRow)
    (h : (st.jobs.map Prod.fst).Nodup) :
    ((update_frequency st u).1.jobs.map Prod.fst).Nodup := by
  unfold update_frequency
  split
  · simp only
    rw [start_monitoring_jobs]
    exact keys_jobsInsert_nodup _ _ _ (stop_monitoring_keys_nodup st u.id h)
  · exact h

theorem appInv_add (s : AppState) (url name : String) (ot : Bool) (freq : Nat)
    (h : AppInv s) : AppInv (api_add_url s url name ot freq) := by
  obtain ⟨hnd, hlt, hknd, hjobs⟩ := h
  unfold api_add_url
  split
  · exact ⟨hnd, hlt, hknd, hjobs⟩
  · dsimp only
    have hanod : ((s.urls ++ [(⟨s.next_id, url, name, !ot, freq, ot⟩ : URLRow)]).map
        URLRow.id).Nodup := by
      rw [List.map_append, List.nodup_append]
      refine ⟨hnd, by simp, ?_⟩
      intro a ha1 ha2
      obtain ⟨r, hr, hrx⟩ := List.mem_map.mp ha1
      have hlt' := hlt r hr
      simp only [List.map_cons, List.map_nil, List.mem_cons,
        List.not_mem_nil, or_false] at ha2
      rw [hrx] at hlt'
      subst ha2
      exact Nat.lt_irrefl _ hlt'

    have hblt : ∀ r ∈ s.urls ++ [(⟨s.next_id, url, name, !ot, freq, ot⟩ : URLRow)],
        r.id < s.next_id + 1 := by
      intro r hr
      rcases List.mem_append.mp hr with hr | hr
      · exact Nat.lt_succ_of_lt (hlt r hr)
      · simp only [List.mem_singleton] at hr
        subst hr
        simp
    have hjobs' : ∀ p ∈ s.monitor.jobs,
        ∃ r ∈ s.urls ++ [(⟨s.next_id, url, name, !ot, freq, ot⟩ : URLRow)],
          r.id = p.1 ∧ r.is_active = true ∧ r.is_one_time = false := by
      intro p hp
      obtain ⟨r, hr, h3⟩ := hjobs p hp
      exact ⟨r, List.mem_append_left _ hr, h3⟩
    split_ifs with hot hact
    · exact ⟨hanod, hblt, hknd, hjobs'⟩
    · refine ⟨hanod, hblt, ?_, ?_⟩
      · rw [start_monitoring_jobs]
        exact keys_jobsInsert_nodup _ _ _ hknd
      · intro p hp
        rw [start_monitoring_jobs] at hp
        rcases mem_jobsInsert _ _ _ _ hp with hq | ⟨hq, _⟩
        · refine ⟨⟨s.next_id, url, name, !ot, freq, ot⟩,
            List.mem_append_right _ (List.mem_singleton_self _), ?_, ?_, ?_⟩
          · rw [hq]
          · cases ot
            · rfl
            · exact absurd rfl hot
          · cases ot
            · rfl
            · exact absurd rfl hot
        · exact hjobs' p hq
    · exfalso
      apply hact
      cases ot
      · rfl
      · exact absurd rfl hot

theorem appInv_delete (s : AppState) (id : Nat) (h : AppInv s) :
    AppInv (api_delete_url s id) := by
  obtain ⟨hnd, hlt, hknd, hjobs⟩ := h
  unfold api_delete_url
  split_ifs with hfind
  · refine ⟨?_, ?_, ?_, ?_⟩
    · exact List.Nodup.sublist (List.Sublist.map _ (List.filter_sublist _)) hnd
    · intro r hr
      exact hlt r (List.mem_of_mem_filter hr)
    · exact stop_monitoring_keys_nodup _ _ hknd
    · intro p hp
      obtain ⟨hpmem, hpne⟩ := stop_monitoring_jobs_mem _ _ p hp
      obtain ⟨rold, hrold, hroldid, hroldact, hroldot⟩ := hjobs p hpmem
      refine ⟨rold, ?_, hroldid, hroldact, hroldot⟩
      rw [List.mem_filter]
      refine ⟨hrold, ?_⟩
      have hne : (rold.id == id) = false := by
        rw [hroldid]
        simpa using hpne
      simp [hne]
  · exact ⟨hnd, hlt, hknd, hjobs⟩

theorem appInv_update (s : AppState) (id : Nat) (name : Option String)
    (freq : Option Nat) (active : Option Bool) (h : AppInv s) :
    AppInv (api_update_url s id name freq active) := by
  obtain ⟨hnd, hlt, hknd, hjobs⟩ := h
  unfold api_update_url
  split_ifs with hfind
  · dsimp only
    set f : URLRow → URLRow := fun r =>
      if r.id == id then
        { r with name := name.getD r.name,
                 check_frequency := freq.getD r.check_frequency,
                 is_active := active.getD r.is_active }
      else r with hf
    have hid_pres : ∀ r : URLRow, (f r).id = r.id := by
      intro r
      rw [hf]
      by_cases hr : (r.id == id) = true <;> simp [hr]
    have hot_pres : ∀ r : URLRow, (f r).is_one_time = r.is_one_time := by
      intro r
      rw [hf]
      by_cases hr : (r.id == id) = true <;> simp [hr]
    have hfix : ∀ r : URLRow, (r.id == id) = false → f r = r := by
      intro r hr
      rw [hf]
      simp [hr]
    have hids : (s.urls.map f).map URLRow.id = s.urls.map URLRow.id := by
      rw [List.map_map]
      apply List.map_congr_left
      intro r _
      exact hid_pres r
    have hnd' : ((s.urls.map f).map URLRow.id).Nodup := by
      rw [hids]; exact hnd
    have hlt' : ∀ r ∈ s.urls.map f, r.id < s.next_id := by
      intro r hr
      obtain ⟨r1, hr1, hfr1⟩ := List.mem_map.mp hr
      rw [← hfr1, hid_pres]
      exact hlt r1 hr1
    split
    · rename_i row hrow
      have hrmem : row ∈ s.urls.map f := List.mem_of_find?_eq_some hrow
      have hrid : row.id = id := by
        have := List.find?_some hrow
        simpa using this
      obtain ⟨r0, hr0, hfr0⟩ := List.mem_map.mp hrmem
      have hr0id : r0.id = id := by
        rw [← hrid, ← hfr0, hid_pres]
      split_ifs with hact
      · refine ⟨hnd', hlt', update_frequency_keys_nodup _ _ hknd, ?_⟩
        intro p hp
        rcases update_frequency_jobs_mem _ _ p hp with ⟨hpid, hsome⟩ | ⟨hpmem, hpne⟩
        · obtain ⟨j, hj⟩ := Option.isSome_iff_exists.mp hsome
          have hpair := lookup_some_pair_mem _ _ _ hj
          obtain ⟨rold, hrold, hroldid, hroldact, hroldot⟩ := hjobs _ hpair
          have hroldid' : rold.id = row.id := hroldid
          have hreq : rold = r0 :=
            List.inj_on_of_nodup_map hnd hrold hr0 (by rw [hroldid', hrid, hr0id])
          refine ⟨row, hrmem, hpid.symm, hact, ?_⟩
          rw [← hfr0, hot_pres, ← hreq]
          exact hroldot
        · obtain ⟨rold, hrold, hroldid, hroldact, hroldot⟩ := hjobs _ hpmem
          have hroldne : (rold.id == id) = false := by
            simp only [beq_eq_false_iff_ne]
            rw [hroldid]
            intro hc
            apply hpne
            rw [hc, hrid]
          refine ⟨rold, ?_, hroldid, hroldact, hroldot⟩
          rw [← hfix rold hroldne]
          exact List.mem_map_of_mem f hrold
      · refine ⟨hnd', hlt', stop_monitoring_keys_nodup _ _ hknd, ?_⟩
        intro p hp
        obtain ⟨hpmem, hpne⟩ := stop_monitoring_jobs_mem _ _ p hp
        obtain ⟨rold, hrold, hroldid, hroldact, hroldot⟩ := hjobs _ hpmem
        have hroldne : (rold.id == id) = false := by
          simp only [beq_eq_false_iff_ne]
          rw [hroldid]
          exact hpne
        refine ⟨rold, ?_, hroldid, hroldact, hroldot⟩
        rw [← hfix rold hroldne]
        exact List.mem_map_of_mem f hrold
    · rename_i hrow
      refine ⟨hnd', hlt', hknd, ?_⟩
      intro p hp
      obtain ⟨rold, hrold, hroldid, hroldact, hroldot⟩ := hjobs _ hp
      by_cases hcase : rold.id = id
      · exfalso
        have hmem : f rold ∈ s.urls.map f := List.mem_map_of_mem f hrold
        have hnp := List.find?_eq_none.mp hrow (f rold) hmem
        apply hnp
        simp [hid_pres rold, hcase]
      · have hroldne : (rold.id == id) = false := by simpa using hcase
        refine ⟨rold, ?_, hroldid, hroldact, hroldot⟩
        rw [← hfix rold hroldne]
        exact List.mem_map_of_mem f hrold
  · exact ⟨hnd, hlt, hknd, hjobs⟩

theorem appInv_applyOp (s : AppState) (op : ApiOp) (h : AppInv s) :
    AppInv (applyOp s op) := by
  cases op with
  | add url name ot freq => exact appInv_add s url name ot freq h
  | update id name freq active => exact appInv_update s id name freq active h
  | del id => exact appInv_delete s id h

theorem appInv_initial : AppInv initialAppState := by
  unfold AppInv initialAppState
  refine ⟨by simp, by simp, by simp, by simp⟩

theorem appInv_runOps : ∀ (ops : List ApiOp) (s : AppState),
    AppInv s → AppInv (runOps s ops) := by
  intro ops
  induction ops with
  | nil => intro s h; exact h
  | cons op ops ih => intro s h; exact ih _ (appInv_applyOp s op h)

theorem api_add_one_time (s : AppState) (url name : String) (freq : Nat) :
    (api_add_url s url name true freq).monitor.jobs = s.monitor.jobs ∧
    (api_add_url s url name true freq).monitor.checks
      = s.monitor.checks ++ [(s.next_id, url)] ∧
    (api_add_url s url name true freq).urls
      = s.urls ++ [⟨s.next_id, url, name, false, freq, true⟩] := by
  unfold api_add_url
  simp

theorem jobs_keys_lt_next (s : AppState) (h : AppInv s) :
    ∀ p ∈ s.monitor.jobs, p.1 < s.next_id := by
  intro p hp
  obtain ⟨hnd, hlt, hknd, hjobs⟩ := h
  obtain ⟨r, hr, hrid, _, _⟩ := hjobs p hp
  rw [← hrid]
  exact hlt r hr

theorem lookup_fresh_none (m : List (Nat × SchedJob)) (k : Nat)
    (h : ∀ p ∈ m, p.1 < k) : m.lookup k = none := by
  cases hl : m.lookup k
  · rfl
  · exfalso
    rename_i v
    have hmem := lookup_some_pair_mem m k v hl
    exact Nat.lt_irrefl _ (h _ hmem)

theorem no_job_for_inactive (s : AppState) (h : AppInv s) :
    ∀ r ∈ s.urls, (r.is_active = false ∨ r.is_one_time = true) →
      s.monitor.jobs.lookup r.id = none := by
  intro r hr hcase
  obtain ⟨hnd, hlt, hknd, hjobs⟩ := h
  cases hl : s.monitor.jobs.lookup r.id
  · rfl
  · exfalso
    rename_i v
    have hpair := lookup_some_pair_mem _ _ _ hl
    obtain ⟨r', hr', hrid', hact', hot'⟩ := hjobs _ hpair
    have hrr : r' = r := List.inj_on_of_nodup_map hnd hr' hr hrid'
    subst hrr
    rcases hcase with hc | hc
    · rw [hact'] at hc; cases hc
    · rw [hot'] at hc; cases hc

/-- C9 counterexample: add a monitored target, deactivate it, then
reactivate it.  The target ends active and not one-time yet holds no
job: `update_url` resumes monitoring through `update_frequency`, which
is a no-op when the id holds no job, so the claimed "if and only if"
fails in the active-without-job direction. -/
theorem c9_counterexample :
    ((runOps initialAppState
        [.add "a" "a" false 60,
         .update 1 none none (some false),
         .update 1 none none (some true)]).urls.find?
        (fun r => r.id == 1)).map (fun r => (r.is_active, r.is_one_time))
      = some (true, false) ∧
    (runOps initialAppState
        [.add "a" "a" false 60,
         .update 1 none none (some false),
         .update 1 none none (some true)]).monitor.jobs.lookup 1 = none := by
  decide

/-- C9 amended: from a fresh start, after any sequence of API calls,
only the forward direction of the claimed equivalence holds: every job
in the mapping belongs to an existing row that is active and not
one-time; hence a target that is not active (or is one-time) holds no
job, and a one-time add performs exactly one synchronous check, leaves
the job mapping untouched, and its fresh id holds no job.  The
converse — every active non-one-time target holds a job — fails after a
deactivate/reactivate cycle (see the counterexample). -/
theorem c9_amended_job_invariant (ops : List ApiOp) :
    (∀ p ∈ (runOps initialAppState ops).monitor.jobs,
      ∃ r ∈ (runOps initialAppState ops).urls,
        r.id = p.1 ∧ r.is_active = true ∧ r.is_one_time = false) ∧
    (∀ r ∈ (runOps initialAppState ops).urls,
      (r.is_active = false ∨ r.is_one_time = true) →
      (runOps initialAppState ops).monitor.jobs.lookup r.id = none) ∧
    (∀ (url name : String) (freq : Nat),
      (api_add_url (runOps initialAppState ops) url name true freq).monitor.jobs
        = (runOps initialAppState ops).monitor.jobs ∧
      (api_add_url (runOps initialAppState ops) url name true freq).monitor.checks
        = (runOps initialAppState ops).monitor.checks
          ++ [((runOps initialAppState ops).next_id, url)] ∧
      (api_add_url (runOps initialAppState ops) url name true
          freq).monitor.jobs.lookup (runOps initialAppState ops).next_id
        = none) := by
  have hinv := appInv_runOps ops initialAppState appInv_initial
  refine ⟨hinv.2.2.2, no_job_for_inactive _ hinv, ?_⟩
  intro url name freq
  obtain ⟨h1, h2, h3⟩ := api_add_one_time (runOps initialAppState ops) url name freq
  refine ⟨h1, h2, ?_⟩
  rw [h1]
  exact lookup_fresh_none _ _ (jobs_keys_lt_next _ hinv)

theorem c9_amended_job_invariant_witness :
    (∀ p ∈ (runOps initialAppState [.add "a" "a" false 60]).monitor.jobs,
      ∃ r ∈ (runOps initialAppState [.add "a" "a" false 60]).urls,
        r.id = p.1 ∧ r.is_active = true ∧ r.is_one_time = false) ∧
    (∀ r ∈ (runOps initialAppState [.add "a" "a" false 60]).urls,
      (r.is_active = false ∨ r.is_one_time = true) →
      (runOps initialAppState [.add "a" "a" false 60]).monitor.jobs.lookup r.id
        = none) ∧
    (∀ (url name : String) (freq : Nat),
      (api_add_url (runOps initialAppState [.add "a" "a" false 60])
          url name true freq).monitor.jobs
        = (runOps initialAppState [.add "a" "a" false 60]).monitor.jobs ∧
      (api_add_url (runOps initialAppState [.add "a" "a" false 60])
          url name true freq).monitor.checks
        = (runOps initialAppState [.add "a" "a" false 60]).monitor.checks
          ++ [((runOps initialAppState [.add "a" "a" false 60]).next_id, url)] ∧
      (api_add_url (runOps initialAppState [.add "a" "a" false 60])
          url name true freq).monitor.jobs.lookup
          (runOps initialAppState [.add "a" "a" false 60]).next_id
        = none) :=
  c9_amended_job_invariant [.add "a" "a" false 60]
